import Mathlib

/-!
# UniTracker pin persistence and interaction model

Shallow embedding of the pin-tracking screens of the UniTracker repository
(`src/client/src/pages/Home.tsx` and `src/unnamed/part_001`) together with the
local-storage persistence layer they share.  Component state is modelled as an
explicit record, each event handler of the source becomes a state-transition
function, and the `localStorage` slot is modelled as a value of a JSON syntax
tree type (JSON.stringify/JSON.parse is an exact inverse pair on the JSON
values this application stores, so the string layer is abstracted away).
Numbers are modelled as rationals, toast notifications as an output list.
-/

/-- A saved pin, following the `Pin` interface of `Home.tsx`
(`id`, `lat`, `lng`, `title`, `description`, `timestamp`). -/
structure Pin where
  id : String
  lat : ℚ
  lng : ℚ
  title : String
  description : String
  timestamp : ℚ
  deriving DecidableEq

/-- A toast notification: the `title` passed to `toast(...)` and whether the
`variant: "destructive"` flag (the error presentation) was set. -/
structure Toast where
  title : String
  destructive : Bool
  deriving DecidableEq

/-- JSON value syntax tree: the codomain of `JSON.parse` and the domain of
`JSON.stringify`. -/
inductive Json where
  | null : Json
  | bool (b : Bool) : Json
  | num (q : ℚ) : Json
  | str (s : String) : Json
  | arr (xs : List Json) : Json
  | obj (kvs : List (String × Json)) : Json

/-- Serialization (`JSON.stringify`) of one pin object: the object literal
with the six fields of the `Pin` interface, in declaration order. -/
def encodePin (p : Pin) : Json :=
  Json.obj [("id", Json.str p.id), ("lat", Json.num p.lat),
    ("lng", Json.num p.lng), ("title", Json.str p.title),
    ("description", Json.str p.description), ("timestamp", Json.num p.timestamp)]

/-- Serialization of the whole list, `JSON.stringify(pins)`: the JSON array
of the encoded pins, in order. -/
def encodePins (ps : List Pin) : Json :=
  Json.arr (ps.map encodePin)

/-- Reading a pin record back out of a JSON value, field by field, exactly as
the components consume a loaded pin (`pin.id`, `pin.lat`, `pin.lng`,
`pin.title`, `pin.description`, `pin.timestamp`); fails on any value that is
not an object of that shape. -/
def decodePin : Json → Option Pin
  | Json.obj [("id", Json.str i), ("lat", Json.num la),
      ("lng", Json.num ln), ("title", Json.str t),
      ("description", Json.str d), ("timestamp", Json.num ts)] =>
    some ⟨i, la, ln, t, d, ts⟩
  | _ => none

/-- Reading a sequence of pin records out of a list of JSON values: every
element must decode as a pin record. -/
def decodePinList : List Json → Option (List Pin)
  | [] => some []
  | x :: xs =>
    match decodePin x, decodePinList xs with
    | some p, some ps => some (p :: ps)
    | _, _ => none

/-- Reading a pin list back out of a JSON value: the value must be an array
and every element must decode as a pin record. -/
def decodePins : Json → Option (List Pin)
  | Json.arr xs => decodePinList xs
  | _ => none

/-- The content of the `"uni_tracker_pins"` local-storage slot as the load
effect can observe it: absent, present but rejected by `JSON.parse`, or
present and parsed to a JSON value. -/
inductive StoredSlot where
  | empty : StoredSlot
  | malformed (raw : String) : StoredSlot
  | json (j : Json) : StoredSlot

/-- The save effect (`localStorage.setItem("uni_tracker_pins",
JSON.stringify(pins))`): the slot is overwritten wholesale with the
serialization of the full list. -/
def savePins (ps : List Pin) (_slot : StoredSlot) : StoredSlot :=
  StoredSlot.json (encodePins ps)

/-- The load effect: the runtime value that ends up in the `pins` state after
the mount effect runs.  When the key is absent (`if (saved)` is false) or
`JSON.parse` throws (the `catch` branch), the initial `[]` stands; otherwise
`setPins(JSON.parse(saved))` installs the parsed value as-is, with no
structural validation. -/
def loadPins : StoredSlot → Json
  | StoredSlot.empty => Json.arr []
  | StoredSlot.malformed _ => Json.arr []
  | StoredSlot.json j => j

/-- JavaScript `String.prototype.trim`: strips leading and trailing
whitespace.  Stated on the character list so that it evaluates by kernel
reduction (the library function `String.trim` is extensionally the same but
is defined by well-founded recursion over byte positions). -/
def jsTrim (s : String) : String :=
  ⟨((s.data.dropWhile Char.isWhitespace).reverse.dropWhile Char.isWhitespace).reverse⟩

/-- The state of the `Home` component: the `useState` hooks of the minimal
variant of `Home.tsx`, plus the list of toasts emitted so far. -/
structure HomeState where
  pins : List Pin
  userLocation : Option (ℚ × ℚ)
  isSidebarOpen : Bool
  isAddingPin : Bool
  selectedLocation : Option (ℚ × ℚ)
  pinTitle : String
  pinDesc : String
  toasts : List Toast
  deriving DecidableEq

/-- The initial state of the component: empty pins, no location, closed
sidebar, add mode off, no pending location, empty form. -/
def initState : HomeState :=
  ⟨[], none, false, false, none, "", "", []⟩

namespace Home

/-- Map click handler `handleMapClick` of the minimal variant: while in add mode, a map click
becomes the selected (pending) location and opens the sidebar; otherwise the
click is ignored. -/
def handleMapClick (latlng : ℚ × ℚ) (s : HomeState) : HomeState :=
  if s.isAddingPin then
    { s with selectedLocation := some latlng, isSidebarOpen := true }
  else s

/-- Typing into the Spot Name input: `setPinTitle(e.target.value)`. -/
def setPinTitle (t : String) (s : HomeState) : HomeState :=
  { s with pinTitle := t }

/-- Typing into the details textarea: `setPinDesc(e.target.value)`. -/
def setPinDesc (d : String) (s : HomeState) : HomeState :=
  { s with pinDesc := d }

/-- Commit handler `savePin` of the minimal variant, with `Date.now()` passed as `now`:
returns unchanged if no location is selected; toasts a destructive
"Please enter a title" if the trimmed title is empty; otherwise appends the
new pin (id and timestamp from `now`), resets the form, clears the selected
location, leaves add mode, and toasts success. -/
def savePin (now : ℕ) (s : HomeState) : HomeState :=
  match s.selectedLocation with
  | none => s
  | some loc =>
    if jsTrim s.pinTitle = "" then
      { s with toasts := s.toasts ++ [⟨"Please enter a title", true⟩] }
    else
      let newPin : Pin :=
        ⟨Nat.repr now, loc.1, loc.2, s.pinTitle, s.pinDesc, (now : ℚ)⟩
      { s with pins := s.pins ++ [newPin], pinTitle := "", pinDesc := "",
               selectedLocation := none, isAddingPin := false,
               toasts := s.toasts ++ [⟨"Location pinned successfully!", false⟩] }

/-- Delete handler `deletePin`: keeps exactly the pins whose id differs from the argument and
toasts "Pin removed". -/
def deletePin (id : String) (s : HomeState) : HomeState :=
  { s with pins := s.pins.filter (fun p => p.id ≠ id),
           toasts := s.toasts ++ [⟨"Pin removed", false⟩] }

/-- Selection handler `flyToPin` of the minimal variant: sets `userLocation`
(the map recenter target, which is the same state the geolocation callbacks
write) to the coordinate of the chosen pin and closes the sidebar. -/
def flyToPin (lat lng : ℚ) (s : HomeState) : HomeState :=
  { s with userLocation := some (lat, lng), isSidebarOpen := false }

/-- The add-pin toggle button: flips `isAddingPin`; entering add mode toasts
an instruction, leaving it clears the selected location. -/
def toggleAddMode (s : HomeState) : HomeState :=
  if s.isAddingPin then
    { s with isAddingPin := false, selectedLocation := none }
  else
    { s with isAddingPin := true,
             toasts := s.toasts ++ [⟨"Tap anywhere on the map to drop a pin", false⟩] }

/-- The Cancel button of the add form (minimal variant): clears the selected
location and leaves add mode. -/
def cancelPin (s : HomeState) : HomeState :=
  { s with selectedLocation := none, isAddingPin := false }

end Home

namespace HomeCyber

/-- Quick capture handler `handleQuickPin` of `src/unnamed/part_001`: refuses with a destructive
"Waiting for GPS..." toast when no live coordinate has been latched; otherwise
latches the live coordinate as the selected location, opens the sidebar,
leaves add mode, and toasts "Capturing Coordinates...". -/
def handleQuickPin (s : HomeState) : HomeState :=
  match s.userLocation with
  | none => { s with toasts := s.toasts ++ [⟨"Waiting for GPS...", true⟩] }
  | some coords =>
    { s with selectedLocation := some coords, isSidebarOpen := true,
             isAddingPin := false,
             toasts := s.toasts ++ [⟨"Capturing Coordinates...", false⟩] }

/-- Commit handler `savePin` of `src/unnamed/part_001`: same guards as the minimal variant
but the new pin is prepended (`[newPin, ...pins]`) and the toasts differ. -/
def savePin (now : ℕ) (s : HomeState) : HomeState :=
  match s.selectedLocation with
  | none => s
  | some loc =>
    if jsTrim s.pinTitle = "" then
      { s with toasts := s.toasts ++ [⟨"Input Required", true⟩] }
    else
      let newPin : Pin :=
        ⟨Nat.repr now, loc.1, loc.2, s.pinTitle, s.pinDesc, (now : ℚ)⟩
      { s with pins := newPin :: s.pins, pinTitle := "", pinDesc := "",
               selectedLocation := none, isAddingPin := false,
               toasts := s.toasts ++ [⟨"Spot Encoded 💾", false⟩] }

end HomeCyber

/-! ## Persistence round trip and malformed storage -/

theorem decodePin_encodePin (p : Pin) : decodePin (encodePin p) = some p := rfl

theorem decodePinList_map_encodePin (P : List Pin) :
    decodePinList (P.map encodePin) = some P := by
  induction P with
  | nil => rfl
  | cons p ps ih => simp [decodePinList, decodePin_encodePin, ih]

/-- C1.  Persistence round-trip: saving any pin list (serializing the whole
list into the single storage key) and loading it back yields the very same
sequence of pin records, every field and the order preserved. -/
theorem c1_persistence_roundtrip (P : List Pin) (slot : StoredSlot) :
    decodePins (loadPins (savePins P slot)) = some P := by
  simp [savePins, loadPins, decodePins, encodePins, decodePinList_map_encodePin]

/-- C3, counterexample.  The claim says any stored value failing structural
validation is treated as empty history; but a slot holding the JSON number 5
(text "5", which JSON.parse accepts) is installed as the pins value verbatim:
the loaded value is not the empty list and is not a pin list at all. -/
theorem c3_counterexample :
    loadPins (StoredSlot.json (Json.num 5)) ≠ Json.arr [] ∧
    decodePins (loadPins (StoredSlot.json (Json.num 5))) = none := by
  constructor
  · intro h
    simp [loadPins] at h
  · rfl

/-- C3, amended.  Loading from an absent slot or from a slot whose content
JSON.parse rejects yields the empty pin list and throws no error; but a value
that parses as JSON is installed as the pins state verbatim, with no
structural validation. -/
theorem c3_amended :
    loadPins StoredSlot.empty = Json.arr [] ∧
    (∀ raw : String, loadPins (StoredSlot.malformed raw) = Json.arr []) ∧
    (∀ j : Json, loadPins (StoredSlot.json j) = j) :=
  ⟨rfl, fun _ => rfl, fun _ => rfl⟩

/-! ## Commit, validation and deletion -/

/-- C2.  With a pending location selected: committing with a title that trims
to empty leaves the pin list unchanged and emits the destructive validation
toast; committing with title "Library" and empty description appends exactly
one pin, whose description equals the empty string. -/
theorem c2_add_validation (s : HomeState) (now : ℕ) (loc : ℚ × ℚ)
    (h : s.selectedLocation = some loc) :
    (jsTrim s.pinTitle = "" →
      (Home.savePin now s).pins = s.pins ∧
      (Home.savePin now s).toasts = s.toasts ++ [⟨"Please enter a title", true⟩]) ∧
    (s.pinTitle = "Library" → s.pinDesc = "" →
      (Home.savePin now s).pins
        = s.pins ++ [⟨Nat.repr now, loc.1, loc.2, "Library", "", (now : ℚ)⟩]) := by
  constructor
  · intro ht
    simp [Home.savePin, h, ht]
  · intro ht hd
    simp only [Home.savePin, h, ht, hd]
    rw [if_neg (by decide : ¬ (jsTrim "Library" = ""))]

theorem c2_add_validation_witness :
    (Home.savePin 3
        { initState with selectedLocation := some (1, 2), pinTitle := "Library" }).pins
      = ({ initState with selectedLocation := some (1, 2), pinTitle := "Library"} : HomeState).pins
          ++ [⟨Nat.repr 3, (1 : ℚ), (2 : ℚ), "Library", "", (3 : ℚ)⟩] :=
  ((c2_add_validation
      { initState with selectedLocation := some (1, 2), pinTitle := "Library" }
      3 (1, 2) rfl).2 rfl rfl)

/-- C7.  Deletion is idempotent: removing an id that no pin carries leaves the
list unchanged; when present, every matching entry is removed and nothing
outside the list is touched; the emitted toast is not an error toast. -/
theorem c7_idempotent_delete (s : HomeState) (id : String) :
    ((∀ p ∈ s.pins, p.id ≠ id) → (Home.deletePin id s).pins = s.pins) ∧
    (∀ p ∈ (Home.deletePin id s).pins, p.id ≠ id) ∧
    (∀ p ∈ (Home.deletePin id s).pins, p ∈ s.pins) ∧
    (Home.deletePin id s).toasts = s.toasts ++ [⟨"Pin removed", false⟩] := by
  refine ⟨?_, ?_, ?_, rfl⟩
  · intro habs
    simp only [Home.deletePin]
    exact List.filter_eq_self.mpr (fun p hp => by simpa using habs p hp)
  · intro p hp
    simp only [Home.deletePin, List.mem_filter, decide_eq_true_eq] at hp
    exact hp.2
  · intro p hp
    simp only [Home.deletePin, List.mem_filter] at hp
    exact hp.1

theorem c7_idempotent_delete_witness :
    (Home.deletePin "x"
        { initState with pins := [⟨"1", 0, 0, "A", "", 0⟩] }).pins
      = ({ initState with pins := [⟨"1", 0, 0, "A", "", 0⟩] } : HomeState).pins :=
  (c7_idempotent_delete { initState with pins := [⟨"1", 0, 0, "A", "", 0⟩] } "x").1
    (by decide)

/-- C8.  A commit attempted from a pending entry with a title that trims to
empty only appends the destructive toast: the pending location, the typed
title and the typed description are all preserved, and the pin list is
unchanged. -/
theorem c8_validation_atomicity (s : HomeState) (now : ℕ) (loc : ℚ × ℚ)
    (h1 : s.selectedLocation = some loc) (h2 : jsTrim s.pinTitle = "") :
    Home.savePin now s
      = { s with toasts := s.toasts ++ [⟨"Please enter a title", true⟩] } ∧
    (Home.savePin now s).selectedLocation = some loc ∧
    (Home.savePin now s).pinTitle = s.pinTitle ∧
    (Home.savePin now s).pinDesc = s.pinDesc ∧
    (Home.savePin now s).pins = s.pins := by
  refine ⟨?_, ?_, ?_, ?_, ?_⟩ <;> simp [Home.savePin, h1, h2]

theorem c8_validation_atomicity_witness :
    Home.savePin 9
        { initState with selectedLocation := some (3, 4), pinTitle := "   ", pinDesc := "note" }
      = { initState with
            selectedLocation := some (3, 4), pinTitle := "   ", pinDesc := "note",
            toasts := initState.toasts ++ [⟨"Please enter a title", true⟩] } :=
  (c8_validation_atomicity
      { initState with selectedLocation := some (3, 4), pinTitle := "   ", pinDesc := "note" }
      9 (3, 4) rfl (by decide)).1

/-- C10.  Invoking the commit action with no pending location is a complete
no-op in both screen variants: the state (pin list, form fields, add-mode
flag, sidebar, toasts) is returned unchanged and no notification is
produced. -/
theorem c10_commit_without_pending (s : HomeState) (now : ℕ)
    (h : s.selectedLocation = none) :
    Home.savePin now s = s ∧ HomeCyber.savePin now s = s := by
  constructor <;> simp [Home.savePin, HomeCyber.savePin, h]

theorem c10_commit_without_pending_witness :
    Home.savePin 0 initState = initState ∧ HomeCyber.savePin 0 initState = initState :=
  c10_commit_without_pending initState 0 rfl

/-! ## Quick capture and pin selection -/

/-- C5.  Quick capture with no latched live coordinate is refused: the whole
state except the toast list is unchanged (in particular no pending entry is
created and the pin list is untouched) and a destructive no-signal toast is
emitted; consequently a pending entry arises only when a live coordinate is
available. -/
theorem c5_quick_capture_no_signal (s : HomeState) (h : s.userLocation = none) :
    HomeCyber.handleQuickPin s
      = { s with toasts := s.toasts ++ [⟨"Waiting for GPS...", true⟩] } ∧
    (HomeCyber.handleQuickPin s).pins = s.pins ∧
    (HomeCyber.handleQuickPin s).selectedLocation = s.selectedLocation := by
  refine ⟨?_, ?_, ?_⟩ <;> simp [HomeCyber.handleQuickPin, h]

theorem c5_quick_capture_no_signal_witness :
    HomeCyber.handleQuickPin initState
      = { initState with toasts := initState.toasts ++ [⟨"Waiting for GPS...", true⟩] } :=
  (c5_quick_capture_no_signal initState rfl).1

/-- A concrete armed state with a latched live coordinate at (1, 1), the
sidebar open on the list, and one saved pin at (2, 2). -/
def selectionState : HomeState :=
  { initState with
      userLocation := some (1, 1), isAddingPin := true,
      isSidebarOpen := true, pins := [⟨"10", 2, 2, "Cafe", "", 10⟩] }

/-- C9, counterexample.  The claim says selecting a pin from the list moves the
controller to Idle and never mutates the live coordinate of the location
provider; but in the code the recenter is implemented by overwriting the
single user-location state (the same variable the geolocation callbacks write
and quick capture reads), and the add-mode flag is left armed. -/
theorem c9_counterexample :
    (Home.flyToPin 2 2 selectionState).userLocation ≠ selectionState.userLocation ∧
    (Home.flyToPin 2 2 selectionState).isAddingPin = true := by
  constructor
  · intro h
    simp [Home.flyToPin, selectionState, initState] at h
  · rfl

/-- C9, amended.  Selecting a pin from the sidebar list closes the sidebar and
recenters the viewport by setting the shared user-location state to the
coordinate of that pin (thereby overwriting the latched live coordinate); it
does not delete or modify any pin and leaves the pending location, the form
fields, the toasts and the add-mode flag unchanged (the controller is not
forced back to Idle). -/
theorem c9_selection_frame (s : HomeState) (lat lng : ℚ) :
    (Home.flyToPin lat lng s).pins = s.pins ∧
    (Home.flyToPin lat lng s).selectedLocation = s.selectedLocation ∧
    (Home.flyToPin lat lng s).isAddingPin = s.isAddingPin ∧
    (Home.flyToPin lat lng s).pinTitle = s.pinTitle ∧
    (Home.flyToPin lat lng s).pinDesc = s.pinDesc ∧
    (Home.flyToPin lat lng s).toasts = s.toasts ∧
    (Home.flyToPin lat lng s).userLocation = some (lat, lng) ∧
    (Home.flyToPin lat lng s).isSidebarOpen = false := by
  refine ⟨rfl, rfl, rfl, rfl, rfl, rfl, rfl, rfl⟩

/-! ## State machine scenario -/

/-- C6.  Starting from the initial Idle state: toggling add mode arms it; a
map click at (51.5, -0.09) captures that coordinate as the pending entry;
cancelling returns to Idle with no pin added, while committing with title
"Cafe" and empty description instead returns to Idle with exactly one new pin
at that coordinate. -/
theorem c6_state_machine_scenario (now : ℕ) :
    (Home.toggleAddMode initState).isAddingPin = true ∧
    (Home.toggleAddMode initState).selectedLocation = none ∧
    (Home.handleMapClick (51.5, -0.09) (Home.toggleAddMode initState)).selectedLocation
      = some (51.5, -0.09) ∧
    (Home.cancelPin (Home.handleMapClick (51.5, -0.09)
        (Home.toggleAddMode initState))).isAddingPin = false ∧
    (Home.cancelPin (Home.handleMapClick (51.5, -0.09)
        (Home.toggleAddMode initState))).selectedLocation = none ∧
    (Home.cancelPin (Home.handleMapClick (51.5, -0.09)
        (Home.toggleAddMode initState))).pins = [] ∧
    (Home.savePin now (Home.setPinDesc "" (Home.setPinTitle "Cafe"
        (Home.handleMapClick (51.5, -0.09) (Home.toggleAddMode initState))))).isAddingPin
      = false ∧
    (Home.savePin now (Home.setPinDesc "" (Home.setPinTitle "Cafe"
        (Home.handleMapClick (51.5, -0.09) (Home.toggleAddMode initState))))).selectedLocation
      = none ∧
    (Home.savePin now (Home.setPinDesc "" (Home.setPinTitle "Cafe"
        (Home.handleMapClick (51.5, -0.09) (Home.toggleAddMode initState))))).pins
      = [⟨Nat.repr now, 51.5, -0.09, "Cafe", "", (now : ℚ)⟩] := by
  have hcafe : ¬ (jsTrim "Cafe" = "") := by decide
  refine ⟨rfl, rfl, rfl, rfl, rfl, rfl, ?_, ?_, ?_⟩ <;>
    simp [Home.toggleAddMode, Home.handleMapClick, Home.setPinTitle,
      Home.setPinDesc, Home.savePin, initState, hcafe]

/-! ## Id uniqueness of sequential adds

Pin ids are produced by `Date.now().toString()`, modelled as `Nat.repr now`.
For the amended uniqueness statement we need that the decimal representation
of a natural number determines the number, proved here through an explicit
decimal decoder. -/

/-- Numeric value of a decimal digit character. -/
def decDigit (c : Char) : ℕ := c.toNat - (48 : ℕ)

/-- Decimal decoder: folds a most-significant-first digit string back into the
number it denotes. -/
def decodeDigits (l : List Char) : ℕ :=
  l.foldl (fun a c => 10 * a + decDigit c) 0

theorem decDigit_digitChar (d : ℕ) (h : d < 10) :
    decDigit (Nat.digitChar d) = d := by
  interval_cases d <;> rfl

theorem toDigitsCore_foldl (fuel : ℕ) :
    ∀ (n : ℕ) (ds : List Char), n < fuel →
      (Nat.toDigitsCore 10 fuel n ds).foldl (fun a c => 10 * a + decDigit c) 0
        = ds.foldl (fun a c => 10 * a + decDigit c) n := by
  induction fuel with
  | zero => exact fun n ds h => absurd h (Nat.not_lt_zero n)
  | succ fuel ih =>
    intro n ds h
    rw [Nat.toDigitsCore]
    by_cases hq : n / 10 = 0
    · have hn : n % 10 = n := Nat.mod_eq_of_lt (by omega)
      rw [if_pos hq, List.foldl_cons]
      rw [decDigit_digitChar (n % 10) (by omega)]
      rw [Nat.mul_zero, Nat.zero_add, hn]
    · have hlt : n / 10 < fuel := by omega
      rw [if_neg hq, ih (n / 10) (Nat.digitChar (n % 10) :: ds) hlt]
      rw [List.foldl_cons, decDigit_digitChar (n % 10) (by omega)]
      rw [Nat.div_add_mod]

theorem decodeDigits_toDigits (n : ℕ) :
    decodeDigits (Nat.toDigits 10 n) = n := by
  unfold Nat.toDigits decodeDigits
  rw [toDigitsCore_foldl (n + 1) n [] (Nat.lt_succ_self n)]
  rfl

/-- The decimal representation used for pin ids is injective: distinct
creation times give distinct id strings. -/
theorem natRepr_injective : Function.Injective Nat.repr := by
  intro m n h
  have hd : Nat.toDigits 10 m = Nat.toDigits 10 n := congrArg String.data h
  have := congrArg decodeDigits hd
  rwa [decodeDigits_toDigits, decodeDigits_toDigits] at this

/-- One user-level add operation: the clock reading at commit time, the map
coordinate clicked, and the form contents typed. -/
structure AddInput where
  now : ℕ
  loc : ℚ × ℚ
  title : String
  desc : String
  deriving DecidableEq

/-- The pin record that a successful commit of the given add operation
creates. -/
def mkPin (i : AddInput) : Pin :=
  ⟨Nat.repr i.now, i.loc.1, i.loc.2, i.title, i.desc, (i.now : ℚ)⟩

/-- One sequential add, as the user performs it through the source handlers:
arm add mode, click the map, type title and description, commit. -/
def addAction (i : AddInput) (s : HomeState) : HomeState :=
  Home.savePin i.now (Home.setPinDesc i.desc (Home.setPinTitle i.title
    (Home.handleMapClick i.loc (Home.toggleAddMode s))))

/-- N sequential add operations, left to right. -/
def runAdds (inputs : List AddInput) (s : HomeState) : HomeState :=
  inputs.foldl (fun t i => addAction i t) s

theorem addAction_pins (i : AddInput) (s : HomeState)
    (hmode : s.isAddingPin = false) (ht : jsTrim i.title ≠ "") :
    (addAction i s).pins = s.pins ++ [mkPin i] ∧
    (addAction i s).isAddingPin = false := by
  constructor <;>
    simp [addAction, Home.toggleAddMode, Home.handleMapClick, Home.setPinTitle,
      Home.setPinDesc, Home.savePin, mkPin, hmode, ht]

theorem runAdds_pins (inputs : List AddInput) (s : HomeState)
    (hmode : s.isAddingPin = false) (ht : ∀ i ∈ inputs, jsTrim i.title ≠ "") :
    (runAdds inputs s).pins = s.pins ++ inputs.map mkPin ∧
    (runAdds inputs s).isAddingPin = false := by
  induction inputs generalizing s with
  | nil => exact ⟨by simp [runAdds], hmode⟩
  | cons i rest ih =>
    have hi := addAction_pins i s hmode (ht i (by simp))
    have hrest := ih (addAction i s) hi.2 (fun j hj => ht j (by simp [hj]))
    constructor
    · show (runAdds rest (addAction i s)).pins = _
      rw [hrest.1, hi.1]
      simp
    · exact hrest.2

/-- C4, counterexample.  Two sequential adds performed within the same
millisecond (`Date.now()` returning 0 both times) produce two pins that both
carry the id "0": the resulting ids are not pairwise distinct and the pin
list holds a duplicate id. -/
theorem c4_counterexample :
    ((runAdds [⟨0, (0, 0), "A", ""⟩, ⟨0, (1, 1), "B", ""⟩] initState).pins.map Pin.id)
        = ["0", "0"] ∧
    ¬ ((runAdds [⟨0, (0, 0), "A", ""⟩, ⟨0, (1, 1), "B", ""⟩] initState).pins.map Pin.id).Nodup := by
  constructor
  · rfl
  · decide

/-- C4, amended.  After any number of sequential add operations whose clock
readings are pairwise distinct and whose decimal ids do not collide with any
pin already in the registry, starting from a duplicate-free registry with add
mode off and with every typed title nonempty after trimming, the ids of the
new pins are pairwise distinct and the resulting pin list contains no
duplicate id.  (The unconditional claim fails: adds within one millisecond
share an id, see the counterexample.) -/
theorem c4_id_uniqueness (inputs : List AddInput) (s : HomeState)
    (hmode : s.isAddingPin = false)
    (ht : ∀ i ∈ inputs, jsTrim i.title ≠ "")
    (htimes : (inputs.map AddInput.now).Nodup)
    (hstart : (s.pins.map Pin.id).Nodup)
    (hfresh : ∀ i ∈ inputs, ∀ p ∈ s.pins, p.id ≠ Nat.repr i.now) :
    ((inputs.map mkPin).map Pin.id).Nodup ∧
    (((runAdds inputs s).pins).map Pin.id).Nodup := by
  have hids : (inputs.map mkPin).map Pin.id
      = (inputs.map AddInput.now).map Nat.repr := by
    simp [mkPin, List.map_map, Function.comp]
  have hnew : ((inputs.map mkPin).map Pin.id).Nodup := by
    rw [hids]
    exact htimes.map natRepr_injective
  refine ⟨hnew, ?_⟩
  rw [(runAdds_pins inputs s hmode ht).1, List.map_append]
  rw [List.nodup_append]
  refine ⟨hstart, hnew, ?_⟩
  intro a ha hb
  rw [hids] at hb
  simp only [List.mem_map] at ha hb
  obtain ⟨p, hp, hpa⟩ := ha
  obtain ⟨n, hn, hna⟩ := hb
  obtain ⟨i, hi, hin⟩ := hn
  exact hfresh i hi p hp (by rw [hpa, ← hna, ← hin])

theorem c4_id_uniqueness_witness :
    (((runAdds [⟨1, (0, 0), "A", ""⟩, ⟨2, (1, 1), "B", ""⟩] initState).pins).map Pin.id).Nodup :=
  (c4_id_uniqueness [⟨1, (0, 0), "A", ""⟩, ⟨2, (1, 1), "B", ""⟩] initState
    rfl (by decide) (by decide) (by decide) (by decide)).2
